import Mathlib

/-!
Shallow embedding of the truth-synthesis engine of `wardle/ocmr`
(`fake/cmd_gen_truth.go` and `ocmr/record.go`).

Go's `math/rand` global generator is modelled by an explicit random
source `RSrc`: `rand.Intn` draws read the `ints` stream, `rand.Float64`
and `rand.Float32` draws read the `floats` stream (values in `[0,1)`
as rationals), `rand.NormFloat64` reads the `norms` stream.  Each call
site consumes the stream entry for its position in the call sequence.
`rand.Intn(n)` with `n <= 0` raises a run-time panic in Go; that panic,
and the `panic(err)` performed by `checkError`, are modelled by the
`Except` error channel with a `GoErr.panicErr` payload, while an error
returned by an ontology call is a `GoErr.goError`.

The SNOMED ontology gateway (`snomed.DatabaseService`, external to this
repository) is modelled by a structure of abstract query functions `DB`.
`GetParentsOfKind` and `GetChildrenOfKind` are only ever called with the
relation kind `snomed.FindingSite`, so the embedding specialises both to
that kind.  `Concept.IsA(snomed.SctDisease)` is modelled by the abstract
predicate `DB.isDisease`.  A Go map keyed by concept id with its
unspecified iteration order is modelled as an association list in first
insertion order (no claim below depends on iteration order).
-/

deriving instance DecidableEq for Except

namespace Ocmr

/-- A SNOMED-CT concept (`snomed.Concept`): stable id plus name. -/
structure Concept where
  conceptID : Nat
  fullySpecifiedName : String
deriving DecidableEq

/-- Model of `ocmr.Duration`: temporal qualifier of a clinical finding. -/
inductive Duration where
  | unknown
  | acute
  | subacute
  | chronic
  | episodic
deriving DecidableEq

/-- Model of `ocmr.Sex`. -/
inductive Sex where
  | male
  | female
deriving DecidableEq

/-- Model of `ocmr.ClinicalFinding`: concept, cached parents, duration. -/
structure ClinicalFinding where
  concept : Concept
  parents : List Concept
  duration : Duration
deriving DecidableEq

/-- Model of `ocmr.Record`: one synthesized patient scenario. -/
structure Record where
  age : Int
  sex : Sex
  findings : List ClinicalFinding
  answer : Concept
  parents : List Concept
deriving DecidableEq

end Ocmr

namespace Fake

open Ocmr

/-- Model of `fake.SexBias`. -/
inductive SexBias where
  | menOnly
  | femaleOnly
  | noSexBias
deriving DecidableEq

/-- Model of `fake.Problem`: a finding, its duration and its Bernoulli rate. -/
structure Problem where
  problem : Concept
  duration : Duration
  probability : ℚ
deriving DecidableEq

/-- Model of `fake.Truth`: the ground-truth profile for one diagnosis. -/
structure Truth where
  diagnosis : Concept
  parents : List Concept
  problems : List Problem
  sexBias : SexBias
  meanAge : Int
  stdDevAge : Int
deriving DecidableEq

/-- Error channel: an error value returned by an ontology query
(`goError`) or a Go run-time panic (`panicErr`). -/
inductive GoErr where
  | goError (msg : String)
  | panicErr (msg : String)
deriving DecidableEq

/-- The ontology gateway `snomed.DatabaseService`, abstracted to the
queries the truth-synthesis code performs.  The two `...OfKind` queries
are specialised to relation kind `snomed.FindingSite`, the only kind the
code uses; `isDisease c` models `c.IsA(snomed.SctDisease)`. -/
structure DB where
  fetchConcept : Nat → Except GoErr Concept
  getAllParents : Concept → Except GoErr (List Concept)
  getParentsOfKindFindingSite : Concept → Except GoErr (List Concept)
  getSiblings : Concept → Except GoErr (List Concept)
  fetchRecursiveChildren : Concept → Except GoErr (List Concept)
  getChildrenOfKindFindingSite : Concept → Except GoErr (List Concept)
  genericise : Concept → List Concept → Option Concept
  isDisease : Concept → Bool

/-- Explicit random source standing in for the global `math/rand`
generator: `ints k` is the raw entropy of the `k`-th `rand.Intn` call,
`floats k` the value of the `k`-th float draw (in `[0,1)`), `norms k`
the value of the `k`-th `rand.NormFloat64` draw. -/
structure RSrc where
  ints : Nat → Nat
  floats : Nat → ℚ
  norms : Nat → ℚ

/-- Model of `rand.Intn n` with entropy `r`: panics when `n = 0` (Go panics for
`n <= 0`; all arguments in this code are non-negative), otherwise
returns a uniform value `r % n` in `[0, n)`. -/
def goIntn (n : Nat) (r : Nat) : Except GoErr Nat :=
  if n = 0 then .error (.panicErr ("invalid argument to Intn"))
  else .ok (r % n)

/-- Model of `fake.checkError`: panics on a returned error, so an ontology error
crossing `checkError` becomes a panic. -/
def checkError {α : Type} : Except GoErr α → Except GoErr α
  | .ok a => .ok a
  | .error (.goError m) => .error (.panicErr m)
  | .error (.panicErr m) => .error (.panicErr m)

/-- The slice `possible` of `fake.randomDuration`. -/
def durationChoices : List Duration :=
  [.acute, .subacute, .chronic, .episodic]

/-- Model of `fake.randomDuration`: indexes `durationChoices` with
`rand.Intn(len(possible)-1)`. -/
def randomDuration (r : Nat) : Except GoErr Duration := do
  let i ← goIntn (durationChoices.length - 1) r
  pure (durationChoices.getD i .unknown)

/-- The slice `possible` of `fake.randomSexBias`. -/
def sexBiasChoices : List SexBias :=
  [.menOnly, .femaleOnly, .noSexBias]

/-- Model of `fake.randomSexBias`: indexes `sexBiasChoices` with
`rand.Intn(len(possible)-1)`. -/
def randomSexBias (r : Nat) : Except GoErr SexBias := do
  let i ← goIntn (sexBiasChoices.length - 1) r
  pure (sexBiasChoices.getD i .noSexBias)

/-- Model of `fake.randomAge`: `rand.Intn(80)+20` unless the float draw is at
most `0.01`, in which case `rand.Intn(20)`. -/
def randomAge (f : ℚ) (r : Nat) : Except GoErr Nat :=
  if 1/100 < f then do
    let x ← goIntn 80 r
    pure (x + 20)
  else do
    let x ← goIntn 20 r
    pure x

/-- Model of `fake.SexBias.RandomSex` with the coin draw made explicit:
`rand.Float32() >= 0.5` selects male in the unbiased case. -/
def SexBias.RandomSex (sb : SexBias) (f : ℚ) : Sex :=
  match sb with
  | .menOnly => .male
  | .femaleOnly => .female
  | .noSexBias => if 1/2 ≤ f then .male else .female

/-- Go's `int(x)` conversion from `float64`: truncation toward zero. -/
def goTrunc (q : ℚ) : Int :=
  if 0 ≤ q then ⌊q⌋ else -⌊-q⌋

/-- The value a dropped Go error leaves behind for a `*snomed.Concept`
result (`nil`, modelled as a zero concept). -/
def orZeroConcept (x : Except GoErr Concept) : Concept :=
  (x.toOption).getD ⟨0, ""⟩

/-- The value a dropped Go error leaves behind for a slice result
(`nil`, which ranges as the empty slice). -/
def orNilList (x : Except GoErr (List Concept)) : List Concept :=
  (x.toOption).getD []

/-- Model of `allSymptoms[symptom.ConceptID] = symptom` on the dedup map,
modelled as an association list in first-insertion order. -/
def insertSym (m : List (Nat × Concept)) (s : Concept) : List (Nat × Concept) :=
  if m.any (fun p => p.1 = s.conceptID) then
    m.map (fun p => if p.1 = s.conceptID then (p.1, s) else p)
  else m ++ [(s.conceptID, s)]

/-- The inner loop of `relatedBySiteForDiagnosis` over the symptoms of
one child: keep each symptom that is not a descendant of the disease
category. -/
def addSymptoms (db : DB) (m : List (Nat × Concept)) (symptoms : List Concept) :
    List (Nat × Concept) :=
  symptoms.foldl
    (fun acc s => if db.isDisease s = false then insertSym acc s else acc) m

/-- The loop of `relatedBySiteForDiagnosis` over the recursive children
of one generic site: `GetChildrenOfKind` errors are returned. -/
def collectChildren (db : DB) :
    List Concept → List (Nat × Concept) → Except GoErr (List (Nat × Concept))
  | [], m => .ok m
  | child :: rest, m => do
      let symptoms ← db.getChildrenOfKindFindingSite child
      collectChildren db rest (addSymptoms db m symptoms)

/-- The outer loop of `relatedBySiteForDiagnosis` over the generic
sites: the error of `FetchRecursiveChildren` is discarded with `_` in
the source, so a failed fetch contributes no children and the loop
continues. -/
def collectSites (db : DB) :
    List Concept → List (Nat × Concept) → Except GoErr (List (Nat × Concept))
  | [], m => .ok m
  | site :: rest, m => do
      let allChildren := orNilList (db.fetchRecursiveChildren site)
      let m2 ← collectChildren db allChildren m
      collectSites db rest m2

/-- Model of `fake.relatedBySiteForDiagnosis`.  Faithful to the source's error
plumbing: the error of `FetchConcept(51185008)` is overwritten before
being checked, the error of `GetSiblings` is never checked, and the
error of `FetchRecursiveChildren` is discarded; only `GetParentsOfKind`
and `GetChildrenOfKind` errors are returned. -/
def relatedBySiteForDiagnosis (db : DB) (concept : Concept) :
    Except GoErr (List Concept) := do
  let sites ← db.getParentsOfKindFindingSite concept
  let thoracic := orZeroConcept (db.fetchConcept 51185008)
  let structures := orNilList (db.getSiblings thoracic) ++ [thoracic]
  let genericSites := sites.filterMap (fun site => db.genericise site structures)
  let m ← collectSites db genericSites []
  pure (m.map (fun p => p.2))

/-- The problem-drawing loop of `fake.generateTruth`: iteration `j`
draws `rand.Intn(totalSymptoms-1)` (entropy `ints b`), a duration
(entropy `ints (b+1)`) and a probability (`floats f`). -/
def genProblems (symptoms : List Concept) (src : RSrc) :
    Nat → Nat → Nat → Except GoErr (List Problem)
  | _, _, 0 => .ok []
  | b, f, k + 1 => do
      let idx ← goIntn (symptoms.length - 1) (src.ints b)
      let d ← randomDuration (src.ints (b + 1))
      let prob := src.floats f
      let rest ← genProblems symptoms src (b + 2) (f + 1) k
      pure (⟨symptoms.getD idx ⟨0, ""⟩, d, prob⟩ :: rest)

/-- Model of `fake.generateTruth`.  `rand.Intn` call sites consume `ints 0`
(symptom count), then two entropy values per drawn problem, then the
age draw, the sex-bias draw and the standard-deviation draw; float
draws consume one probability per problem and then the `randomAge`
gate.  The `(nil, false)` return is `some`/`none` on the `.ok` channel;
`checkError` panics are on the error channel. -/
def generateTruth (db : DB) (diagnosis : Concept) (src : RSrc) :
    Except GoErr (Option Truth) := do
  let symptoms ← checkError (relatedBySiteForDiagnosis db diagnosis)
  let totalSymptoms := symptoms.length
  if 0 < totalSymptoms then do
    let r0 ← goIntn (min 30 totalSymptoms) (src.ints 0)
    let numSymptoms := 1 + r0
    let parents ← checkError (db.getAllParents diagnosis)
    let problems ← genProblems symptoms src 1 0 numSymptoms
    let meanAge ← randomAge (src.floats numSymptoms) (src.ints (1 + 2 * numSymptoms))
    let sd := min meanAge 20
    let bias ← randomSexBias (src.ints (2 + 2 * numSymptoms))
    let sdDraw ← goIntn sd (src.ints (3 + 2 * numSymptoms))
    pure (some ⟨diagnosis, parents, problems, bias, (meanAge : Int), (sdDraw : Int)⟩)
  else
    pure none

/-- Model of `fake.Problem.ToFinding`: fetches the problem's parents, panicking
(via `checkError`) on a lookup error. -/
def Problem.ToFinding (db : DB) (fp : Problem) : Except GoErr ClinicalFinding := do
  let parents ← checkError (db.getAllParents fp.problem)
  pure ⟨fp.problem, parents, fp.duration⟩

/-- The finding-selection loop of `fake.Truth.ToQuestion`: the problem
at offset `i` is included iff its probability exceeds the float draw
`floats i`. -/
def selectFindings (db : DB) (src : RSrc) :
    List Problem → Nat → Except GoErr (List ClinicalFinding)
  | [], _ => .ok []
  | p :: rest, i =>
      if src.floats i < p.probability then do
        let f ← Problem.ToFinding db p
        let tail ← selectFindings db src rest (i + 1)
        pure (f :: tail)
      else
        selectFindings db src rest (i + 1)

/-- Model of `fake.Truth.ToQuestion`.  Float draws: one per problem
(`floats 0 .. floats (k-1)`), then the `randomAge` gate (`floats k`),
then the sex coin (`floats (k+1)`); `randomAge` consumes `ints 0`; the
normal draw is `norms 0`. -/
def Truth.ToQuestion (ft : Truth) (db : DB) (src : RSrc) : Except GoErr Record := do
  let findings ← selectFindings db src ft.problems 0
  let k := ft.problems.length
  let age0 ← randomAge (src.floats k) (src.ints 0)
  let age : Int :=
    if 0 < ft.meanAge ∧ 0 < ft.stdDevAge then
      let a := goTrunc (src.norms 0 * (ft.stdDevAge : ℚ) + (ft.meanAge : ℚ))
      if a < 0 then 0 else a
    else (age0 : Int)
  let sex := SexBias.RandomSex ft.sexBias (src.floats (k + 1))
  let parents ← checkError (db.getAllParents ft.diagnosis)
  pure ⟨age, sex, findings, ft.diagnosis, parents⟩

/-- Model of `fake.explicitProblem`: a literal problem definition. -/
structure ExplicitProblem where
  conceptID : Nat
  duration : Duration
  probability : ℚ
deriving DecidableEq

/-- Model of `fake.explicitTruth`: a literal truth definition. -/
structure ExplicitTruth where
  diagnosis : Nat
  problems : List ExplicitProblem
  meanAge : Int
  stdDevAge : Int
deriving DecidableEq

/-- Model of `fake.explicitProblem.toFakeProblem`. -/
def toFakeProblem (db : DB) (ep : ExplicitProblem) : Except GoErr Problem := do
  let c ← db.fetchConcept ep.conceptID
  pure ⟨c, ep.duration, ep.probability⟩

/-- The problem-resolution loop of `fake.explicitTruth.toFakeTruth`:
left-to-right, returning the first lookup error. -/
def toFakeProblems (db : DB) : List ExplicitProblem → Except GoErr (List Problem)
  | [] => .ok []
  | p :: rest => do
      let fp ← toFakeProblem db p
      let tail ← toFakeProblems db rest
      pure (fp :: tail)

/-- Model of `fake.explicitTruth.toFakeTruth`: resolves the diagnosis, all
problems and the parents, returning any lookup error; sex bias is
always `NoSexBias` and the ages are copied verbatim. -/
def toFakeTruth (db : DB) (et : ExplicitTruth) : Except GoErr Truth := do
  let diagnosis ← db.fetchConcept et.diagnosis
  let problems ← toFakeProblems db et.problems
  let parents ← db.getAllParents diagnosis
  pure ⟨diagnosis, parents, problems, .noSexBias, et.meanAge, et.stdDevAge⟩

/-- The literal `fake.myocardialInfarction` explicit truth. -/
def myocardialInfarction : ExplicitTruth :=
  ⟨22298006,
   [⟨29857009, .acute, 95/100⟩,
    ⟨267036007, .acute, 70/100⟩,
    ⟨415690000, .acute, 80/100⟩,
    ⟨426555006, .acute, 55/100⟩,
    ⟨76388001, .acute, 60/100⟩],
   60, 20⟩

/-- Model of `fake.MyocardialInfarctionTruth`. -/
def MyocardialInfarctionTruth (db : DB) : Except GoErr Truth :=
  toFakeTruth db myocardialInfarction

/-- The replication count of `fake.GenerateFakeTruth`:
`p := 5 + int(calculatePrevalence(...)*10000)*n`, as a function of the
prevalence estimate and the caller-supplied scale factor `n`. -/
def replicationCount (prev : ℚ) (n : Int) : Int :=
  5 + goTrunc (prev * 10000) * n

/-! Concrete ontology snapshots and random sources, used to evaluate
the definitions on closed inputs. -/

/-- A diagnosis concept of a small concrete ontology. -/
def cDiag : Concept := ⟨1, ""⟩

/-- A finding-site parent of `cDiag`. -/
def cSiteA : Concept := ⟨100, ""⟩

/-- A second finding-site parent of `cDiag`. -/
def cSiteB : Concept := ⟨101, ""⟩

/-- A sibling of the thoracic reference structure. -/
def cSib : Concept := ⟨51, ""⟩

/-- The thoracic reference structure, id 51185008. -/
def cThor : Concept := ⟨51185008, ""⟩

/-- A recursive child of a generic site. -/
def cChild : Concept := ⟨200, ""⟩

/-- A candidate symptom. -/
def cSym1 : Concept := ⟨301, ""⟩

/-- A second candidate symptom. -/
def cSym2 : Concept := ⟨302, ""⟩

/-- A third candidate symptom. -/
def cSym3 : Concept := ⟨303, ""⟩

/-- A small concrete ontology in which `cDiag` sits at site `cSiteA`,
generalised to the thoracic structure, whose recursive child `cChild`
carries the given symptom list. -/
def dbWith (syms : List Concept) : DB :=
  { fetchConcept := fun id => .ok ⟨id, ""⟩
    getAllParents := fun _ => .ok []
    getParentsOfKindFindingSite := fun c =>
      if c.conceptID = 1 then .ok [cSiteA] else .ok []
    getSiblings := fun _ => .ok []
    fetchRecursiveChildren := fun c =>
      if c.conceptID = 51185008 then .ok [cChild] else .ok []
    getChildrenOfKindFindingSite := fun c =>
      if c.conceptID = 200 then .ok syms else .ok []
    genericise := fun site structs =>
      if site.conceptID = 100 then structs.getLast? else none
    isDisease := fun _ => false }

/-- Ontology discovering exactly one candidate symptom. -/
def dbOne : DB := dbWith [cSym1]

/-- Ontology discovering exactly two candidate symptoms. -/
def dbTwo : DB := dbWith [cSym1, cSym2]

/-- Ontology discovering exactly three candidate symptoms. -/
def dbThree : DB := dbWith [cSym1, cSym2, cSym3]

/-- Ontology in which `cDiag` has two finding sites generalising to two
generic sites, and the recursive-descendants query fails on the second
(thoracic) one while succeeding on the first. -/
def dbBadFetch : DB :=
  { dbWith [cSym1] with
    getParentsOfKindFindingSite := fun c =>
      if c.conceptID = 1 then .ok [cSiteA, cSiteB] else .ok []
    getSiblings := fun c =>
      if c.conceptID = 51185008 then .ok [cSib] else .ok []
    fetchRecursiveChildren := fun c =>
      if c.conceptID = 51 then .ok [cChild]
      else .error (.goError ("recursive fetch failed"))
    genericise := fun site structs =>
      if site.conceptID = 100 then structs.head?
      else if site.conceptID = 101 then structs.getLast?
      else none }

/-- Ontology in which the finding-site parent query itself fails. -/
def dbBadParents : DB :=
  { dbWith [cSym1] with
    getParentsOfKindFindingSite := fun _ =>
      .error (.goError ("parents query failed")) }

/-- Ontology in which concept id 76388001 does not resolve. -/
def dbNoResolve : DB :=
  { dbWith [cSym1] with
    fetchConcept := fun id =>
      if id = 76388001 then .error (.goError ("not found"))
      else .ok ⟨id, ""⟩ }

/-- Random source whose every draw is zero. -/
def srcZero : RSrc := ⟨fun _ => 0, fun _ => 0, fun _ => 0⟩

/-- Random source with zero integer entropy, float draws `1/2` and
normal draws `-1`. -/
def srcHalf : RSrc := ⟨fun _ => 0, fun _ => 1/2, fun _ => -1⟩

/-- A concrete truth with one near-certain and one zero-probability
problem, sampled in the witnesses below. -/
def tSample : Truth :=
  ⟨cDiag, [], [⟨cSym1, .acute, 95/100⟩, ⟨cSym2, .acute, 0⟩], .noSexBias, 60, 20⟩

/-- Model of `Except.isOk`, as a Boolean: does the call return normally? -/
def isOkE {α : Type} : Except GoErr α → Bool
  | .ok _ => true
  | .error _ => false

end Fake

namespace Fake

open Ocmr

lemma ebind_ok {α β : Type} (a : α) (f : α → Except GoErr β) :
    (Except.ok a >>= f) = f a := rfl

lemma ebind_error {α β : Type} (e : GoErr) (f : α → Except GoErr β) :
    ((Except.error e : Except GoErr α) >>= f) = .error e := rfl

lemma epure_def {α : Type} (a : α) : (pure a : Except GoErr α) = .ok a := rfl

lemma checkError_ok_iff {α : Type} (x : Except GoErr α) (a : α) :
    checkError x = .ok a ↔ x = .ok a := by
  cases x with
  | ok b => simp [checkError]
  | error e => cases e <;> simp [checkError]

lemma checkError_of_error {α : Type} (x : Except GoErr α) (e : GoErr)
    (h : x = .error e) : ∃ m, checkError x = .error (.panicErr m) := by
  subst h
  cases e with
  | goError m => exact ⟨m, rfl⟩
  | panicErr m => exact ⟨m, rfl⟩

lemma goIntn_ok_iff (n r v : Nat) :
    goIntn n r = .ok v ↔ n ≠ 0 ∧ v = r % n := by
  unfold goIntn
  split
  · simp_all
  · simp_all [eq_comm]

lemma goIntn_lt {n r v : Nat} (h : goIntn n r = .ok v) : v < n := by
  rw [goIntn_ok_iff] at h
  obtain ⟨h0, hv⟩ := h
  subst hv
  exact Nat.mod_lt _ (Nat.pos_of_ne_zero h0)

lemma goIntn_zero (r : Nat) :
    goIntn 0 r = .error (.panicErr ("invalid argument to Intn")) := rfl

lemma randomDuration_mem {r : Nat} {d : Duration}
    (h : randomDuration r = .ok d) :
    d = .acute ∨ d = .subacute ∨ d = .chronic := by
  unfold randomDuration at h
  cases hi : goIntn (durationChoices.length - 1) r with
  | error e => rw [hi] at h; exact absurd h (by simp [ebind_error])
  | ok i =>
      rw [hi, ebind_ok, epure_def] at h
      have hlt : i < durationChoices.length - 1 := goIntn_lt hi
      have : i = 0 ∨ i = 1 ∨ i = 2 := by
        simp [durationChoices] at hlt
        omega
      rcases this with h0 | h1 | h2 <;> subst_vars <;>
        simp_all [durationChoices]

lemma randomSexBias_mem {r : Nat} {b : SexBias}
    (h : randomSexBias r = .ok b) :
    b = .menOnly ∨ b = .femaleOnly := by
  unfold randomSexBias at h
  cases hi : goIntn (sexBiasChoices.length - 1) r with
  | error e => rw [hi] at h; exact absurd h (by simp [ebind_error])
  | ok i =>
      rw [hi, ebind_ok, epure_def] at h
      have hlt : i < sexBiasChoices.length - 1 := goIntn_lt hi
      have : i = 0 ∨ i = 1 := by
        simp [sexBiasChoices] at hlt
        omega
      rcases this with h0 | h1 <;> subst_vars <;>
        simp_all [sexBiasChoices]

lemma randomAge_ok (f : ℚ) (r : Nat) : ∃ a, randomAge f r = .ok a := by
  unfold randomAge
  split <;> exact ⟨_, rfl⟩

lemma randomAge_bounds {f : ℚ} {r : Nat} {a : Nat}
    (h : randomAge f r = .ok a) :
    (1/100 < f → 20 ≤ a ∧ a < 100) ∧ (¬(1/100 < f) → a < 20) := by
  unfold randomAge at h
  split at h
  · cases hi : goIntn 80 r with
    | error e => rw [hi] at h; exact absurd h (by simp [ebind_error])
    | ok x =>
        rw [hi, ebind_ok, epure_def] at h
        have : x < 80 := goIntn_lt hi
        cases h
        constructor
        · intro _; omega
        · intro hc; exact absurd (by assumption) hc
  · cases hi : goIntn 20 r with
    | error e => rw [hi] at h; exact absurd h (by simp [ebind_error])
    | ok x =>
        rw [hi, ebind_ok, epure_def] at h
        have : x < 20 := goIntn_lt hi
        cases h
        constructor
        · intro hc; exact absurd hc (by assumption)
        · intro _; omega

lemma getD_mem_dropLast {α : Type} (l : List α) (i : Nat) (d : α)
    (h : i < l.length - 1) : l.getD i d ∈ l.dropLast := by
  have h1 : i < l.length := by omega
  have h2 : i < l.dropLast.length := by simpa using h
  have e1 : l.getD i d = l[i] := by
    simp [List.getD_eq_getElem?_getD, List.getElem?_eq_getElem h1]
  rw [e1, ← List.getElem_dropLast l i h2]
  exact List.getElem_mem h2

lemma genProblems_length {syms : List Concept} {src : RSrc} :
    ∀ {k b f : Nat} {l : List Problem},
      genProblems syms src b f k = .ok l → l.length = k := by
  intro k
  induction k with
  | zero =>
      intro b f l h
      unfold genProblems at h
      rw [show (Except.ok [] : Except GoErr (List Problem)) = pure [] from rfl,
        epure_def] at h
      cases h
      rfl
  | succ k ih =>
      intro b f l h
      unfold genProblems at h
      cases hi : goIntn (syms.length - 1) (src.ints b) with
      | error e => rw [hi, ebind_error] at h; cases h
      | ok idx =>
          rw [hi, ebind_ok] at h
          cases hd : randomDuration (src.ints (b + 1)) with
          | error e => rw [hd, ebind_error] at h; cases h
          | ok d =>
              rw [hd, ebind_ok] at h
              cases hrest : genProblems syms src (b + 2) (f + 1) k with
              | error e => simp only [hrest, ebind_error] at h; cases h
              | ok rest =>
                  simp only [hrest, ebind_ok, epure_def] at h
                  cases h
                  simp [ih hrest]

lemma genProblems_mem {syms : List Concept} {src : RSrc} :
    ∀ {k b f : Nat} {l : List Problem},
      genProblems syms src b f k = .ok l →
      ∀ p ∈ l, p.problem ∈ syms.dropLast ∧
        (p.duration = .acute ∨ p.duration = .subacute ∨ p.duration = .chronic) := by
  intro k
  induction k with
  | zero =>
      intro b f l h
      unfold genProblems at h
      rw [show (Except.ok [] : Except GoErr (List Problem)) = pure [] from rfl,
        epure_def] at h
      cases h
      intro p hp
      cases hp
  | succ k ih =>
      intro b f l h
      unfold genProblems at h
      cases hi : goIntn (syms.length - 1) (src.ints b) with
      | error e => rw [hi, ebind_error] at h; cases h
      | ok idx =>
          rw [hi, ebind_ok] at h
          cases hd : randomDuration (src.ints (b + 1)) with
          | error e => rw [hd, ebind_error] at h; cases h
          | ok d =>
              rw [hd, ebind_ok] at h
              cases hrest : genProblems syms src (b + 2) (f + 1) k with
              | error e => simp only [hrest, ebind_error] at h; cases h
              | ok rest =>
                  simp only [hrest, ebind_ok, epure_def] at h
                  cases h
                  intro p hp
                  rcases List.mem_cons.mp hp with hhead | htail
                  · subst hhead
                    refine ⟨getD_mem_dropLast _ _ _ (goIntn_lt hi), ?_⟩
                    exact randomDuration_mem hd
                  · exact ih hrest p htail

lemma generateTruth_some_inv {db : DB} {diag : Concept} {src : RSrc} {t : Truth}
    (h : generateTruth db diag src = .ok (some t)) :
    ∃ syms r0 parents problems meanAge bias sdDraw,
      relatedBySiteForDiagnosis db diag = .ok syms ∧
      0 < syms.length ∧
      goIntn (min 30 syms.length) (src.ints 0) = .ok r0 ∧
      db.getAllParents diag = .ok parents ∧
      genProblems syms src 1 0 (1 + r0) = .ok problems ∧
      randomAge (src.floats (1 + r0)) (src.ints (1 + 2 * (1 + r0))) = .ok meanAge ∧
      randomSexBias (src.ints (2 + 2 * (1 + r0))) = .ok bias ∧
      goIntn (min meanAge 20) (src.ints (3 + 2 * (1 + r0))) = .ok sdDraw ∧
      t = ⟨diag, parents, problems, bias, (meanAge : Int), (sdDraw : Int)⟩ := by
  unfold generateTruth at h
  cases hsy : relatedBySiteForDiagnosis db diag with
  | error e =>
      obtain ⟨m, hm⟩ := checkError_of_error _ _ hsy
      rw [hm, ebind_error] at h
      cases h
  | ok syms =>
      have hck : checkError (relatedBySiteForDiagnosis db diag) = .ok syms :=
        (checkError_ok_iff _ _).mpr hsy
      simp only [hck, ebind_ok] at h
      split at h
      case isFalse => rw [epure_def] at h; simp at h
      case isTrue hpos =>
        cases hr0 : goIntn (min 30 syms.length) (src.ints 0) with
        | error e => rw [hr0, ebind_error] at h; cases h
        | ok r0 =>
            simp only [hr0, ebind_ok] at h
            cases hpar : db.getAllParents diag with
            | error e =>
                obtain ⟨m, hm⟩ := checkError_of_error _ _ hpar
                rw [hm, ebind_error] at h
                cases h
            | ok parents =>
                have hckp : checkError (db.getAllParents diag) = .ok parents :=
                  (checkError_ok_iff _ _).mpr hpar
                simp only [hckp, ebind_ok] at h
                cases hpr : genProblems syms src 1 0 (1 + r0) with
                | error e => simp only [hpr, ebind_error] at h; cases h
                | ok problems =>
                    simp only [hpr, ebind_ok] at h
                    cases hma : randomAge (src.floats (1 + r0))
                        (src.ints (1 + 2 * (1 + r0))) with
                    | error e => simp only [hma, ebind_error] at h; cases h
                    | ok meanAge =>
                        simp only [hma, ebind_ok] at h
                        cases hb : randomSexBias (src.ints (2 + 2 * (1 + r0))) with
                        | error e => simp only [hb, ebind_error] at h; cases h
                        | ok bias =>
                            simp only [hb, ebind_ok] at h
                            cases hsd : goIntn (min meanAge 20)
                                (src.ints (3 + 2 * (1 + r0))) with
                            | error e => simp only [hsd, ebind_error] at h; cases h
                            | ok sdDraw =>
                                simp only [hsd, ebind_ok, epure_def,
                                  Except.ok.injEq, Option.some.injEq] at h
                                exact ⟨syms, r0, parents, problems, meanAge, bias,
                                  sdDraw, rfl, hpos, hr0, rfl, hpr, hma, hb, hsd,
                                  h.symm⟩

lemma generateTruth_ok_none_iff {db : DB} {diag : Concept} {src : RSrc}
    {r : Option Truth} (h : generateTruth db diag src = .ok r) :
    (r = none ↔ relatedBySiteForDiagnosis db diag = .ok []) := by
  unfold generateTruth at h
  cases hsy : relatedBySiteForDiagnosis db diag with
  | error e =>
      obtain ⟨m, hm⟩ := checkError_of_error _ _ hsy
      rw [hm, ebind_error] at h
      cases h
  | ok syms =>
      have hck : checkError (relatedBySiteForDiagnosis db diag) = .ok syms :=
        (checkError_ok_iff _ _).mpr hsy
      simp only [hck, ebind_ok] at h
      split at h
      case isTrue hpos =>
        constructor
        · intro hnone
          subst hnone
          exfalso
          cases hr0 : goIntn (min 30 syms.length) (src.ints 0) with
          | error e => rw [hr0, ebind_error] at h; cases h
          | ok r0 =>
              simp only [hr0, ebind_ok] at h
              cases hpar : db.getAllParents diag with
              | error e =>
                  obtain ⟨m, hm⟩ := checkError_of_error _ _ hpar
                  rw [hm, ebind_error] at h
                  cases h
              | ok parents =>
                  have hckp : checkError (db.getAllParents diag) = .ok parents :=
                    (checkError_ok_iff _ _).mpr hpar
                  simp only [hckp, ebind_ok] at h
                  cases hpr : genProblems syms src 1 0 (1 + r0) with
                  | error e => simp only [hpr, ebind_error] at h; cases h
                  | ok problems =>
                      simp only [hpr, ebind_ok] at h
                      cases hma : randomAge (src.floats (1 + r0))
                          (src.ints (1 + 2 * (1 + r0))) with
                      | error e => simp only [hma, ebind_error] at h; cases h
                      | ok meanAge =>
                          simp only [hma, ebind_ok] at h
                          cases hb : randomSexBias (src.ints (2 + 2 * (1 + r0))) with
                          | error e => simp only [hb, ebind_error] at h; cases h
                          | ok bias =>
                              simp only [hb, ebind_ok] at h
                              cases hsd : goIntn (min meanAge 20)
                                  (src.ints (3 + 2 * (1 + r0))) with
                              | error e => simp only [hsd, ebind_error] at h; cases h
                              | ok sdDraw =>
                                  simp only [hsd, ebind_ok, epure_def] at h
                                  exact Option.noConfusion (Except.ok.inj h)
        · intro hnil
          injection hnil with hnil
          subst hnil
          simp at hpos
      case isFalse hpos =>
        rw [epure_def] at h
        cases h
        have hnil : syms = [] := List.length_eq_zero.mp (by omega)
        subst hnil
        simp

lemma collectChildren_error {db : DB} :
    ∀ {cs : List Concept} {m : List (Nat × Concept)} {e : GoErr},
      collectChildren db cs m = .error e →
      ∃ c ∈ cs, db.getChildrenOfKindFindingSite c = .error e := by
  intro cs
  induction cs with
  | nil =>
      intro m e h
      unfold collectChildren at h
      cases h
  | cons c rest ih =>
      intro m e h
      unfold collectChildren at h
      cases hq : db.getChildrenOfKindFindingSite c with
      | error e2 =>
          rw [hq, ebind_error] at h
          injection h with h
          subst h
          exact ⟨c, List.mem_cons_self _ _, hq⟩
      | ok symptoms =>
          simp only [hq, ebind_ok] at h
          obtain ⟨c2, hc2, herr⟩ := ih h
          exact ⟨c2, List.mem_cons_of_mem _ hc2, herr⟩

lemma collectSites_error {db : DB} :
    ∀ {ss : List Concept} {m : List (Nat × Concept)} {e : GoErr},
      collectSites db ss m = .error e →
      ∃ c, db.getChildrenOfKindFindingSite c = .error e := by
  intro ss
  induction ss with
  | nil =>
      intro m e h
      unfold collectSites at h
      cases h
  | cons site rest ih =>
      intro m e h
      unfold collectSites at h
      cases hc : collectChildren db (orNilList (db.fetchRecursiveChildren site)) m with
      | error e2 =>
          simp only [hc, ebind_error] at h
          injection h with h
          subst h
          obtain ⟨c, _, herr⟩ := collectChildren_error hc
          exact ⟨c, herr⟩
      | ok m2 =>
          simp only [hc, ebind_ok] at h
          exact ih h

lemma relatedBySite_propagates_parents_error {db : DB} {c : Concept} {e : GoErr}
    (h : db.getParentsOfKindFindingSite c = .error e) :
    relatedBySiteForDiagnosis db c = .error e := by
  unfold relatedBySiteForDiagnosis
  rw [h, ebind_error]

lemma relatedBySite_error_inv {db : DB} {c : Concept} {e : GoErr}
    (h : relatedBySiteForDiagnosis db c = .error e) :
    db.getParentsOfKindFindingSite c = .error e ∨
    ∃ child, db.getChildrenOfKindFindingSite child = .error e := by
  unfold relatedBySiteForDiagnosis at h
  cases hp : db.getParentsOfKindFindingSite c with
  | error e2 =>
      rw [hp, ebind_error] at h
      injection h with h
      subst h
      exact Or.inl rfl
  | ok sites =>
      simp only [hp, ebind_ok] at h
      set gs := List.filterMap
        (fun site => db.genericise site
          (orNilList (db.getSiblings (orZeroConcept (db.fetchConcept 51185008))) ++
            [orZeroConcept (db.fetchConcept 51185008)])) sites with hgs
      cases hm : collectSites db gs [] with
      | error e2 =>
          simp only [hm, ebind_error] at h
          injection h with h
          subst h
          exact Or.inr (collectSites_error hm)
      | ok m =>
          simp only [hm, ebind_ok, epure_def] at h
          cases h

/-- C1: the claim that `discoverCandidateFindings` (the function
`relatedBySiteForDiagnosis`) fails only by propagating ontology errors
and never suppresses one is FALSE: in the concrete ontology
`dbBadFetch`, the `FetchRecursiveChildren` query on the thoracic
generic site returns an error during the discovery call (its error is
discarded with `_` in the source), yet the call returns a partial
candidate set `[cSym1]` instead of the error. -/
theorem relatedBySite_suppression_cex :
    dbBadFetch.fetchRecursiveChildren cThor = .error (.goError ("recursive fetch failed")) ∧
    relatedBySiteForDiagnosis dbBadFetch cDiag = .ok [cSym1] := by
  constructor
  · rfl
  · decide

/-- C1 (amended): `relatedBySiteForDiagnosis` propagates the errors of
the `GetParentsOfKind` query and of the per-child `GetChildrenOfKind`
queries, and these are the only error sources of the call; errors of
`FetchConcept(51185008)`, `GetSiblings` and `FetchRecursiveChildren`
are ignored, so for those the call can return a candidate set built
while such a query failed. -/
theorem relatedBySite_error_spec (db : DB) (c : Concept) :
    (∀ e, db.getParentsOfKindFindingSite c = .error e →
      relatedBySiteForDiagnosis db c = .error e) ∧
    (∀ e, relatedBySiteForDiagnosis db c = .error e →
      db.getParentsOfKindFindingSite c = .error e ∨
      ∃ child, db.getChildrenOfKindFindingSite child = .error e) := by
  constructor
  · intro e h
    exact relatedBySite_propagates_parents_error h
  · intro e h
    exact relatedBySite_error_inv h

/-- Witness for C1's amended theorem: on the concrete ontology whose
finding-site parent query fails, discovery returns exactly that
error. -/
theorem relatedBySite_error_spec_witness :
    relatedBySiteForDiagnosis dbBadParents cDiag =
      .error (.goError ("parents query failed")) :=
  (relatedBySite_error_spec dbBadParents cDiag).1 _ rfl

/-- The truth value produced by `generateTruth` on the concrete
three-symptom ontology with the `srcHalf` random source. -/
def tGen : Truth :=
  ⟨cDiag, [], [⟨cSym1, .acute, 1/2⟩], .menOnly, 20, 0⟩

/-- The truth value produced by `MyocardialInfarctionTruth` on a
concrete ontology resolving every id to a bare concept. -/
def tMI : Truth :=
  ⟨⟨22298006, ""⟩, [],
   [⟨⟨29857009, ""⟩, .acute, 95/100⟩,
    ⟨⟨267036007, ""⟩, .acute, 70/100⟩,
    ⟨⟨415690000, ""⟩, .acute, 80/100⟩,
    ⟨⟨426555006, ""⟩, .acute, 55/100⟩,
    ⟨⟨76388001, ""⟩, .acute, 60/100⟩],
   .noSexBias, 60, 20⟩

lemma toFakeTruth_ok_inv {db : DB} {et : ExplicitTruth} {t : Truth}
    (h : toFakeTruth db et = .ok t) :
    ∃ d problems parents,
      db.fetchConcept et.diagnosis = .ok d ∧
      toFakeProblems db et.problems = .ok problems ∧
      db.getAllParents d = .ok parents ∧
      t = ⟨d, parents, problems, .noSexBias, et.meanAge, et.stdDevAge⟩ := by
  unfold toFakeTruth at h
  cases hd : db.fetchConcept et.diagnosis with
  | error e => rw [hd, ebind_error] at h; cases h
  | ok d =>
      simp only [hd, ebind_ok] at h
      cases hps : toFakeProblems db et.problems with
      | error e => simp only [hps, ebind_error] at h; cases h
      | ok problems =>
          simp only [hps, ebind_ok] at h
          cases hpar : db.getAllParents d with
          | error e => simp only [hpar, ebind_error] at h; cases h
          | ok parents =>
              simp only [hpar, ebind_ok, epure_def, Except.ok.injEq] at h
              exact ⟨d, problems, parents, rfl, rfl, hpar, h.symm⟩

lemma toFakeProblems_ok_resolves {db : DB} :
    ∀ {ps : List ExplicitProblem} {l : List Problem},
      toFakeProblems db ps = .ok l →
      ∀ ep ∈ ps, ∃ c, db.fetchConcept ep.conceptID = .ok c := by
  intro ps
  induction ps with
  | nil =>
      intro l h ep hep
      cases hep
  | cons p rest ih =>
      intro l h ep hep
      unfold toFakeProblems toFakeProblem at h
      cases hc : db.fetchConcept p.conceptID with
      | error e => rw [hc, ebind_error, ebind_error] at h; cases h
      | ok c =>
          simp only [hc, ebind_ok, epure_def] at h
          cases hrest : toFakeProblems db rest with
          | error e => simp only [hrest, ebind_error] at h; cases h
          | ok tail =>
              rcases List.mem_cons.mp hep with hh | ht
              · subst hh
                exact ⟨c, hc⟩
              · exact ih hrest ep ht

unseal Rat.mul Rat.inv Rat.add Rat.sub in
/-- C2: the claim that `generateTruth` returns normally on every
non-empty candidate set is FALSE on the code: on the concrete ontology
`dbOne` discovery yields the single candidate `[cSym1]`, making the
symptom draw `rand.Intn(totalSymptoms-1) = rand.Intn(0)` panic; and on
`dbTwo` (two candidates) the all-zero random source gives a drawn mean
age of 0, making `rand.Intn(min(meanAge,20)) = rand.Intn(0)` panic.
The claim reflects the intent of the `totalSymptoms > 0` guard, so this
is recorded as a code bug. -/
theorem generateTruth_panic_cases :
    relatedBySiteForDiagnosis dbOne cDiag = .ok [cSym1] ∧
    generateTruth dbOne cDiag srcZero =
      .error (.panicErr ("invalid argument to Intn")) ∧
    relatedBySiteForDiagnosis dbTwo cDiag = .ok [cSym1, cSym2] ∧
    generateTruth dbTwo cDiag srcZero =
      .error (.panicErr ("invalid argument to Intn")) := by
  refine ⟨by decide, ?_, by decide, ?_⟩ <;> decide

/-- C3: every uniform draw inside truth construction excludes its last
option: every problem of a generated Truth is drawn from the candidate
list minus its final element, its Duration is acute, subacute or
chronic (never episodic, never unknown), and the Truth's sex bias is
men-only or female-only (never no-bias). -/
theorem generateTruth_draws_exclude_last (db : DB) (diag : Concept)
    (src : RSrc) (t : Truth) (h : generateTruth db diag src = .ok (some t)) :
    ∃ syms, relatedBySiteForDiagnosis db diag = .ok syms ∧
      (∀ p ∈ t.problems, p.problem ∈ syms.dropLast ∧
        (p.duration = .acute ∨ p.duration = .subacute ∨ p.duration = .chronic)) ∧
      (t.sexBias = .menOnly ∨ t.sexBias = .femaleOnly) := by
  obtain ⟨syms, r0, parents, problems, meanAge, bias, sdDraw, hsy, hpos, hr0,
    hpar, hpr, hma, hb, hsd, ht⟩ := generateTruth_some_inv h
  subst ht
  exact ⟨syms, hsy, fun p hp => genProblems_mem hpr p hp, randomSexBias_mem hb⟩

unseal Rat.mul Rat.inv Rat.add Rat.sub in
/-- Witness for C3: the draw-exclusion property evaluated on the
concrete three-symptom ontology with the `srcHalf` random source. -/
theorem generateTruth_draws_exclude_last_witness :
    ∃ syms, relatedBySiteForDiagnosis dbThree cDiag = .ok syms ∧
      (∀ p ∈ tGen.problems, p.problem ∈ syms.dropLast ∧
        (p.duration = .acute ∨ p.duration = .subacute ∨ p.duration = .chronic)) ∧
      (tGen.sexBias = .menOnly ∨ tGen.sexBias = .femaleOnly) :=
  generateTruth_draws_exclude_last dbThree cDiag srcHalf tGen (by decide)

unseal Rat.mul Rat.inv Rat.add Rat.sub in
/-- C4: the claim that `generateTruth` returns found=false exactly on
zero candidates and otherwise found=true with a bounded problem count
is FALSE as stated: on `dbOne`, discovery yields the non-empty
candidate set `[cSym1]`, yet the call does not return normally at all
(the symptom draw panics), so no found=true return is produced. -/
theorem generateTruth_found_cex :
    relatedBySiteForDiagnosis dbOne cDiag = .ok [cSym1] ∧
    isOkE (generateTruth dbOne cDiag srcZero) = false := by
  refine ⟨by decide, by decide⟩

/-- C4 (amended): whenever `generateTruth` returns normally, it
returns no Truth exactly when discovery yielded zero candidates, and a
returned Truth has a problems sequence of length `k` with
`1 ≤ k ≤ min(30, number of candidates)`. -/
theorem generateTruth_found_spec (db : DB) (diag : Concept) (src : RSrc)
    (r : Option Truth) (h : generateTruth db diag src = .ok r) :
    (r = none ↔ relatedBySiteForDiagnosis db diag = .ok []) ∧
    (∀ t, r = some t → ∃ syms, relatedBySiteForDiagnosis db diag = .ok syms ∧
      1 ≤ t.problems.length ∧ t.problems.length ≤ min 30 syms.length) := by
  refine ⟨generateTruth_ok_none_iff h, ?_⟩
  intro t hr
  subst hr
  obtain ⟨syms, r0, parents, problems, meanAge, bias, sdDraw, hsy, hpos, hr0,
    hpar, hpr, hma, hb, hsd, ht⟩ := generateTruth_some_inv h
  subst ht
  have hlen : problems.length = 1 + r0 := genProblems_length hpr
  have hlt : r0 < min 30 syms.length := goIntn_lt hr0
  refine ⟨syms, hsy, ?_, ?_⟩
  · show 1 ≤ problems.length
    omega
  · show problems.length ≤ min 30 syms.length
    omega

unseal Rat.mul Rat.inv Rat.add Rat.sub in
/-- Witness for C4's amended theorem, on the concrete three-symptom
ontology with the `srcHalf` random source. -/
theorem generateTruth_found_spec_witness :
    ((some tGen = none ↔ relatedBySiteForDiagnosis dbThree cDiag = .ok []) ∧
     (∀ t, some tGen = some t →
       ∃ syms, relatedBySiteForDiagnosis dbThree cDiag = .ok syms ∧
         1 ≤ t.problems.length ∧ t.problems.length ≤ min 30 syms.length)) :=
  generateTruth_found_spec dbThree cDiag srcHalf (some tGen) (by decide)

/-- C6: every Truth the program constructs satisfies the cap
`stdDevAge ≤ min(meanAge, 20)`: the discovery path draws `stdDevAge`
with `rand.Intn(min(meanAge,20))`, and the explicit
myocardial-infarction truth carries meanAge 60 and stdDevAge 20. -/
theorem truth_stdDev_capped :
    (∀ db diag src t, generateTruth db diag src = .ok (some t) →
      t.stdDevAge ≤ min t.meanAge 20) ∧
    (∀ db t, MyocardialInfarctionTruth db = .ok t →
      t.stdDevAge ≤ min t.meanAge 20) := by
  constructor
  · intro db diag src t h
    obtain ⟨syms, r0, parents, problems, meanAge, bias, sdDraw, hsy, hpos, hr0,
      hpar, hpr, hma, hb, hsd, ht⟩ := generateTruth_some_inv h
    subst ht
    have hlt : sdDraw < min meanAge 20 := goIntn_lt hsd
    show (sdDraw : Int) ≤ min (meanAge : Int) 20
    omega
  · intro db t h
    unfold MyocardialInfarctionTruth at h
    obtain ⟨d, problems, parents, hd, hps, hpar, ht⟩ := toFakeTruth_ok_inv h
    subst ht
    show (20 : Int) ≤ min 60 20
    decide

unseal Rat.mul Rat.inv Rat.add Rat.sub in
/-- Witness for C6: the cap evaluated on the Truth generated from the
concrete three-symptom ontology and on the concrete
myocardial-infarction truth. -/
theorem truth_stdDev_capped_witness :
    tGen.stdDevAge ≤ min tGen.meanAge 20 ∧ tMI.stdDevAge ≤ min tMI.meanAge 20 :=
  ⟨truth_stdDev_capped.1 dbThree cDiag srcHalf tGen (by decide),
   truth_stdDev_capped.2 dbOne tMI (by decide)⟩

unseal Rat.mul Rat.inv Rat.add Rat.sub in
/-- C5: the claim that the replication count is at least 5 and monotone
in prevalence for every caller-supplied scale factor is FALSE: the code
accepts a negative scale factor `n` (`n < 0` means "use all diagnoses"
in `GenerateFakeTruth`), and with `n = -1` a prevalence of `1/2` yields
the count `-4995 < 5`, while the zero-prevalence count is `5`, so the
count decreases as prevalence grows. -/
theorem replicationCount_cex :
    replicationCount (1/2) (-1) = -4995 ∧
    replicationCount 0 (-1) = 5 ∧
    replicationCount (1/2) (-1) < 5 ∧
    replicationCount (1/2) (-1) < replicationCount 0 (-1) := by
  refine ⟨by decide, by decide, by decide, by decide⟩

/-- C5 (amended): for every nonnegative prevalence estimate and every
nonnegative scale factor `n`, the replication count equals
`5 + floor(prevalence * 10000) * n`, is at least 5, and is monotone in
the prevalence. -/
theorem replicationCount_spec (prev : ℚ) (n : Int) (hp : 0 ≤ prev)
    (hn : 0 ≤ n) :
    replicationCount prev n = 5 + ⌊prev * 10000⌋ * n ∧
    5 ≤ replicationCount prev n ∧
    ∀ q : ℚ, 0 ≤ q → q ≤ prev → replicationCount q n ≤ replicationCount prev n := by
  have hmul : (0 : ℚ) ≤ prev * 10000 := by positivity
  have heq : replicationCount prev n = 5 + ⌊prev * 10000⌋ * n := by
    unfold replicationCount goTrunc
    rw [if_pos hmul]
  refine ⟨heq, ?_, ?_⟩
  · rw [heq]
    have h1 : 0 ≤ ⌊prev * 10000⌋ := Int.floor_nonneg.mpr hmul
    have h2 : 0 ≤ ⌊prev * 10000⌋ * n := mul_nonneg h1 hn
    omega
  · intro q hq hqp
    have hq10 : (0 : ℚ) ≤ q * 10000 := by positivity
    have heq2 : replicationCount q n = 5 + ⌊q * 10000⌋ * n := by
      unfold replicationCount goTrunc
      rw [if_pos hq10]
    rw [heq, heq2]
    have hle : q * 10000 ≤ prev * 10000 :=
      mul_le_mul_of_nonneg_right hqp (by norm_num)
    have hfl : ⌊q * 10000⌋ ≤ ⌊prev * 10000⌋ := Int.floor_le_floor hle
    have h3 : ⌊q * 10000⌋ * n ≤ ⌊prev * 10000⌋ * n :=
      mul_le_mul_of_nonneg_right hfl hn
    omega

unseal Rat.mul Rat.inv Rat.add Rat.sub in
/-- Witness for C5's amended theorem at prevalence `19/20` and scale
factor 2. -/
theorem replicationCount_spec_witness :
    (0 ≤ (19/20 : ℚ)) ∧ (0 ≤ (2 : Int)) ∧
    (replicationCount (19/20) 2 = 5 + ⌊(19/20 : ℚ) * 10000⌋ * 2 ∧
     5 ≤ replicationCount (19/20) 2 ∧
     ∀ q : ℚ, 0 ≤ q → q ≤ 19/20 →
       replicationCount q 2 ≤ replicationCount (19/20) 2) :=
  ⟨by norm_num, by norm_num,
   replicationCount_spec (19/20) 2 (by norm_num) (by norm_num)⟩

lemma snd_mem_of_mem_enumFrom {α : Type} :
    ∀ {l : List α} {n : Nat} {x : Nat × α}, x ∈ List.enumFrom n l → x.2 ∈ l := by
  intro l
  induction l with
  | nil =>
      intro n x h
      cases h
  | cons a as ih =>
      intro n x h
      simp only [List.enumFrom] at h
      rcases List.mem_cons.mp h with h1 | h2
      · subst h1
        exact List.mem_cons_self _ _
      · exact List.mem_cons_of_mem _ (ih h2)

lemma toFinding_ok {db : DB} {pf : Concept → List Concept}
    (hpf : ∀ c, db.getAllParents c = .ok (pf c)) (p : Problem) :
    Problem.ToFinding db p = .ok ⟨p.problem, pf p.problem, p.duration⟩ := by
  unfold Problem.ToFinding
  have hck : checkError (db.getAllParents p.problem) = .ok (pf p.problem) :=
    (checkError_ok_iff _ _).mpr (hpf p.problem)
  rw [hck, ebind_ok]
  rfl

lemma selectFindings_eq (db : DB) (src : RSrc) (pf : Concept → List Concept)
    (hpf : ∀ c, db.getAllParents c = .ok (pf c)) :
    ∀ (problems : List Problem) (i : Nat),
      selectFindings db src problems i =
        .ok ((List.enumFrom i problems).filterMap
          (fun x => if src.floats x.1 < x.2.probability then
            some ⟨x.2.problem, pf x.2.problem, x.2.duration⟩ else none)) := by
  intro problems
  induction problems with
  | nil => intro i; rfl
  | cons p rest ih =>
      intro i
      unfold selectFindings
      by_cases hc : src.floats i < p.probability
      · rw [if_pos hc, toFinding_ok hpf p, ebind_ok, ih (i + 1), ebind_ok,
          epure_def]
        congr 1
        simp only [List.enumFrom, List.filterMap_cons, if_pos hc]
      · rw [if_neg hc, ih (i + 1)]
        congr 1
        simp only [List.enumFrom, List.filterMap_cons, if_neg hc]

lemma toQuestion_ok_inv {ft : Truth} {db : DB} {src : RSrc} {rec : Record}
    (h : Truth.ToQuestion ft db src = .ok rec) :
    ∃ findings age0 parents,
      selectFindings db src ft.problems 0 = .ok findings ∧
      randomAge (src.floats ft.problems.length) (src.ints 0) = .ok age0 ∧
      db.getAllParents ft.diagnosis = .ok parents ∧
      rec = ⟨(if 0 < ft.meanAge ∧ 0 < ft.stdDevAge then
               (if goTrunc (src.norms 0 * (ft.stdDevAge : ℚ) + (ft.meanAge : ℚ)) < 0
                then 0
                else goTrunc (src.norms 0 * (ft.stdDevAge : ℚ) + (ft.meanAge : ℚ)))
             else (age0 : Int)),
            SexBias.RandomSex ft.sexBias (src.floats (ft.problems.length + 1)),
            findings, ft.diagnosis, parents⟩ := by
  unfold Truth.ToQuestion at h
  cases hf : selectFindings db src ft.problems 0 with
  | error e => rw [hf, ebind_error] at h; cases h
  | ok findings =>
      simp only [hf, ebind_ok] at h
      cases ha : randomAge (src.floats ft.problems.length) (src.ints 0) with
      | error e => simp only [ha, ebind_error] at h; cases h
      | ok age0 =>
          simp only [ha, ebind_ok] at h
          cases hpar : db.getAllParents ft.diagnosis with
          | error e =>
              obtain ⟨m, hm⟩ := checkError_of_error _ _ hpar
              rw [hm, ebind_error] at h
              cases h
          | ok parents =>
              have hck : checkError (db.getAllParents ft.diagnosis) = .ok parents :=
                (checkError_ok_iff _ _).mpr hpar
              simp only [hck, ebind_ok, epure_def, Except.ok.injEq] at h
              exact ⟨findings, age0, parents, rfl, rfl, rfl, h.symm⟩

/-- C7: when sampling a Truth into a Record, the findings are exactly
the problems whose independent uniform draw is strictly below their
probability (in problem order), and a Truth all of whose problems have
probability 0 yields no findings when the draws are nonnegative. -/
theorem toQuestion_inclusion (ft : Truth) (db : DB) (src : RSrc)
    (pf : Concept → List Concept) (rec : Record)
    (hpf : ∀ c, db.getAllParents c = .ok (pf c))
    (h : Truth.ToQuestion ft db src = .ok rec) :
    rec.findings =
      (List.enumFrom 0 ft.problems).filterMap
        (fun x => if src.floats x.1 < x.2.probability then
          some ⟨x.2.problem, pf x.2.problem, x.2.duration⟩ else none) ∧
    ((∀ k, 0 ≤ src.floats k) → (∀ p ∈ ft.problems, p.probability = 0) →
      rec.findings = []) := by
  obtain ⟨findings, age0, parents, hsel, hage, hpar, hrec⟩ := toQuestion_ok_inv h
  have hsel2 := selectFindings_eq db src pf hpf ft.problems 0
  rw [hsel] at hsel2
  injection hsel2 with hsel2
  have hfind : rec.findings = findings := by rw [hrec]
  constructor
  · rw [hfind]
    exact hsel2
  · intro hnn hz
    rw [hfind, hsel2]
    rw [List.filterMap_eq_nil_iff]
    intro x hx
    have hmem : x.2 ∈ ft.problems := snd_mem_of_mem_enumFrom hx
    rw [if_neg]
    rw [hz x.2 hmem]
    exact not_lt.mpr (hnn x.1)

/-- The record sampled from `tSample` on the concrete three-symptom
ontology with the `srcHalf` random source. -/
def rec40 : Record := ⟨40, .male, [⟨cSym1, [], .acute⟩], cDiag, []⟩

unseal Rat.mul Rat.inv Rat.add Rat.sub in
/-- Witness for C7 on a concrete sampling run: the near-certain problem
is included, the zero-probability problem is not. -/
theorem toQuestion_inclusion_witness :
    rec40.findings =
      (List.enumFrom 0 tSample.problems).filterMap
        (fun x => if srcHalf.floats x.1 < x.2.probability then
          some ⟨x.2.problem, [], x.2.duration⟩ else none) ∧
    ((∀ k, 0 ≤ srcHalf.floats k) → (∀ p ∈ tSample.problems, p.probability = 0) →
      rec40.findings = []) :=
  toQuestion_inclusion tSample dbThree srcHalf (fun _ => []) rec40
    (fun _ => rfl) (by decide)

/-- C8: the sampled age: with positive mean and standard deviation it
is the truncated normal draw `norm * stdDev + mean` clamped to be
non-negative; otherwise it comes from `randomAge`, landing in
`[20, 100)` when the 1-percent tail is not taken and in `[0, 20)`
otherwise. -/
theorem toQuestion_age_spec (ft : Truth) (db : DB) (src : RSrc) (rec : Record)
    (h : Truth.ToQuestion ft db src = .ok rec) :
    (0 < ft.meanAge ∧ 0 < ft.stdDevAge →
      rec.age =
        max (goTrunc (src.norms 0 * (ft.stdDevAge : ℚ) + (ft.meanAge : ℚ))) 0 ∧
      0 ≤ rec.age) ∧
    (¬(0 < ft.meanAge ∧ 0 < ft.stdDevAge) →
      (1/100 < src.floats ft.problems.length → 20 ≤ rec.age ∧ rec.age < 100) ∧
      (¬(1/100 < src.floats ft.problems.length) →
        0 ≤ rec.age ∧ rec.age < 20)) := by
  obtain ⟨findings, age0, parents, hsel, hage, hpar, hrec⟩ := toQuestion_ok_inv h
  have hA : rec.age =
      (if 0 < ft.meanAge ∧ 0 < ft.stdDevAge then
        (if goTrunc (src.norms 0 * (ft.stdDevAge : ℚ) + (ft.meanAge : ℚ)) < 0
         then 0
         else goTrunc (src.norms 0 * (ft.stdDevAge : ℚ) + (ft.meanAge : ℚ)))
       else (age0 : Int)) := by rw [hrec]
  constructor
  · intro hcond
    rw [hA, if_pos hcond]
    constructor
    · omega
    · omega
  · intro hcond
    rw [hA, if_neg hcond]
    have hbounds := randomAge_bounds hage
    constructor
    · intro hgate
      have := hbounds.1 hgate
      omega
    · intro hgate
      have := hbounds.2 hgate
      omega

unseal Rat.mul Rat.inv Rat.add Rat.sub in
/-- Witness for C8 on the concrete sampling run of `tSample` (positive
mean 60 and standard deviation 20, normal draw -1, giving age 40). -/
theorem toQuestion_age_spec_witness :
    (0 < tSample.meanAge ∧ 0 < tSample.stdDevAge →
      rec40.age =
        max (goTrunc (srcHalf.norms 0 * (tSample.stdDevAge : ℚ) +
          (tSample.meanAge : ℚ))) 0 ∧
      0 ≤ rec40.age) ∧
    (¬(0 < tSample.meanAge ∧ 0 < tSample.stdDevAge) →
      (1/100 < srcHalf.floats tSample.problems.length →
        20 ≤ rec40.age ∧ rec40.age < 100) ∧
      (¬(1/100 < srcHalf.floats tSample.problems.length) →
        0 ≤ rec40.age ∧ rec40.age < 20)) :=
  toQuestion_age_spec tSample dbThree srcHalf rec40 (by decide)

/-- C9: the sampled sex: a men-only bias always gives male, a
female-only bias always gives female, and no bias resolves by the fair
coin `draw >= 1/2`. -/
theorem toQuestion_sex_spec (ft : Truth) (db : DB) (src : RSrc) (rec : Record)
    (h : Truth.ToQuestion ft db src = .ok rec) :
    (ft.sexBias = .menOnly → rec.sex = .male) ∧
    (ft.sexBias = .femaleOnly → rec.sex = .female) ∧
    (ft.sexBias = .noSexBias →
      rec.sex =
        if 1/2 ≤ src.floats (ft.problems.length + 1) then .male else .female) := by
  obtain ⟨findings, age0, parents, hsel, hage, hpar, hrec⟩ := toQuestion_ok_inv h
  have hs : rec.sex =
      SexBias.RandomSex ft.sexBias (src.floats (ft.problems.length + 1)) := by
    rw [hrec]
  refine ⟨?_, ?_, ?_⟩ <;> intro hb <;> rw [hs, hb] <;> rfl

/-- A men-only truth with no problems, sampled in the C9 witness. -/
def tMenSample : Truth := ⟨cDiag, [], [], .menOnly, 60, 20⟩

/-- The record sampled from `tMenSample` on the concrete ontology with
the `srcHalf` random source. -/
def recMen : Record := ⟨40, .male, [], cDiag, []⟩

unseal Rat.mul Rat.inv Rat.add Rat.sub in
/-- Witness for C9 on a concrete men-only sampling run. -/
theorem toQuestion_sex_spec_witness :
    (tMenSample.sexBias = .menOnly → recMen.sex = .male) ∧
    (tMenSample.sexBias = .femaleOnly → recMen.sex = .female) ∧
    (tMenSample.sexBias = .noSexBias →
      recMen.sex =
        if 1/2 ≤ srcHalf.floats (tMenSample.problems.length + 1) then .male
        else .female) :=
  toQuestion_sex_spec tMenSample dbThree srcHalf recMen (by decide)

/-- C10: loading the explicit myocardial-infarction truth: when every
concept lookup succeeds it returns the Truth for diagnosis 22298006
with exactly the five literal problems (chest pain 29857009 at 0.95 and
ST elevation 76388001 at 0.60 among them), sex bias no-bias, mean age
60 and standard deviation 20; an error on the diagnosis lookup is
returned as is, and if any problem concept id is unresolvable no Truth
is returned. -/
theorem myocardialInfarctionTruth_spec (db : DB) :
    (∀ d c1 c2 c3 c4 c5 parents,
      db.fetchConcept 22298006 = .ok d →
      db.fetchConcept 29857009 = .ok c1 →
      db.fetchConcept 267036007 = .ok c2 →
      db.fetchConcept 415690000 = .ok c3 →
      db.fetchConcept 426555006 = .ok c4 →
      db.fetchConcept 76388001 = .ok c5 →
      db.getAllParents d = .ok parents →
      MyocardialInfarctionTruth db =
        .ok ⟨d, parents,
          [⟨c1, .acute, 95/100⟩, ⟨c2, .acute, 70/100⟩, ⟨c3, .acute, 80/100⟩,
           ⟨c4, .acute, 55/100⟩, ⟨c5, .acute, 60/100⟩], .noSexBias, 60, 20⟩ ∧
      (∀ t, MyocardialInfarctionTruth db = .ok t →
        t.problems.length = 5 ∧ (⟨c1, .acute, 95/100⟩ : Problem) ∈ t.problems ∧
        (⟨c5, .acute, 60/100⟩ : Problem) ∈ t.problems ∧
        t.sexBias = .noSexBias ∧ t.meanAge = 60 ∧ t.stdDevAge = 20)) ∧
    (∀ e, db.fetchConcept 22298006 = .error e →
      MyocardialInfarctionTruth db = .error e) ∧
    ((∃ ep ∈ myocardialInfarction.problems,
        ∀ c, ¬(db.fetchConcept ep.conceptID = .ok c)) →
      ∀ t, ¬(MyocardialInfarctionTruth db = .ok t)) := by
  refine ⟨?_, ?_, ?_⟩
  · intro d c1 c2 c3 c4 c5 parents hd h1 h2 h3 h4 h5 hpar
    have hmain : MyocardialInfarctionTruth db =
        .ok ⟨d, parents,
          [⟨c1, .acute, 95/100⟩, ⟨c2, .acute, 70/100⟩, ⟨c3, .acute, 80/100⟩,
           ⟨c4, .acute, 55/100⟩, ⟨c5, .acute, 60/100⟩], .noSexBias, 60, 20⟩ := by
      unfold MyocardialInfarctionTruth toFakeTruth
      simp only [myocardialInfarction, toFakeProblems, toFakeProblem, hd, h1, h2,
        h3, h4, h5, hpar, ebind_ok, epure_def]
    refine ⟨hmain, ?_⟩
    intro t ht
    rw [hmain] at ht
    injection ht with ht
    subst ht
    refine ⟨rfl, ?_, ?_, rfl, rfl, rfl⟩
    · simp [List.mem_cons]
    · simp [List.mem_cons]
  · intro e he
    unfold MyocardialInfarctionTruth toFakeTruth
    simp only [myocardialInfarction, he, ebind_error]
  · rintro ⟨ep, hep, hnone⟩ t ht
    unfold MyocardialInfarctionTruth at ht
    obtain ⟨d, problems, parents, hd, hps, hpar, _⟩ := toFakeTruth_ok_inv ht
    obtain ⟨c, hc⟩ := toFakeProblems_ok_resolves hps ep hep
    exact hnone c hc

unseal Rat.mul Rat.inv Rat.add Rat.sub in
/-- Witness for C10: on the all-resolving concrete ontology the loader
returns the expected Truth; on the ontology where id 76388001 does not
resolve, no Truth is returned. -/
theorem myocardialInfarctionTruth_spec_witness :
    MyocardialInfarctionTruth dbOne = .ok tMI ∧
    ¬(MyocardialInfarctionTruth dbNoResolve = .ok tMI) :=
  ⟨((myocardialInfarctionTruth_spec dbOne).1 ⟨22298006, ""⟩ ⟨29857009, ""⟩
      ⟨267036007, ""⟩ ⟨415690000, ""⟩ ⟨426555006, ""⟩ ⟨76388001, ""⟩ []
      rfl rfl rfl rfl rfl rfl rfl).1,
   (myocardialInfarctionTruth_spec dbNoResolve).2.2
     ⟨⟨76388001, .acute, 60/100⟩, by decide,
      fun c hc => by simp [dbNoResolve, dbWith] at hc⟩ tMI⟩

end Fake
